import Mathlib

/-!
Shallow embedding of the akheron UART-proxy core (src/akheron.py) and proofs
about its checksum calculation, pattern rewriting, delimiter matching, tee
sink, relay callback and replay direction detection.

Bytes are modelled as `Nat` (Python ints); Python lists as `List Nat`;
functions that can raise a Python exception return `Except Unit _`.
-/

namespace Akheron

/-- The `SupportedChecksums` enum of akheron.py. -/
inductive SupportedChecksums where
  | Checksum8Xor
  | Checksum8Modulo256
  | Checksum8Modulo256Plus1
  | Checksum82sComplement
deriving DecidableEq

/-- Embedding of `calculate_checksum(data, checksum_method)`.
`none` method returns `.ok none` (Python `None`).
`Checksum8Xor` uses `functools.reduce(operator.xor, data)`, which raises
`TypeError` on an empty list: modelled as `.error ()`.
`Checksum82sComplement` is Python `-(sum(data) % 256) & 0xFF`; for a Python
int, `& 0xFF` is arithmetic mod 256, and Python `%` on a positive modulus
agrees with `Int.emod`. -/
def calculate_checksum (data : List Nat) (checksum_method : Option SupportedChecksums) :
    Except Unit (Option Nat) :=
  match checksum_method with
  | none => .ok none
  | some .Checksum8Xor =>
    match data with
    | [] => .error ()
    | x :: xs => .ok (some (xs.foldl (fun a b => a ^^^ b) x))
  | some .Checksum8Modulo256 => .ok (some (data.sum % 256))
  | some .Checksum8Modulo256Plus1 => .ok (some (data.sum % 256 + 1))
  | some .Checksum82sComplement => .ok (some ((-((data.sum % 256 : Nat) : Int) % 256).toNat))

/-- A substitution table: the Python ordered dict `patterns` with its
hex-string keys decoded back to byte sequences (the encoding via
`" ".join(hex ...)` is injective, and `dict` preserves insertion order). -/
abbrev Table := List (List Nat × List Nat)

/-- Python slice test `match_list == data[i:i + len_ml]`. -/
def matchAt (pat data : List Nat) (i : Nat) : Bool :=
  (data.drop i).take pat.length == pat

/-- Python splice `data[i:i + len_ml] = rep`. -/
def splice (data : List Nat) (i n : Nat) (rep : List Nat) : List Nat :=
  data.take i ++ rep ++ data.drop (i + n)

/-- Python `data[-1] = c`, which raises `IndexError` on an empty list. -/
def setLastE (data : List Nat) (c : Nat) : Except Unit (List Nat) :=
  match data with
  | [] => .error ()
  | _ :: _ => .ok (data.dropLast ++ [c])

/-- The body executed when `match_list == data[i:i + len_ml]` in
`replace_patterns_if_matched`: splice the replacement in, recompute the
checksum over `data[:-1]` and store it in `data[-1]` when a method is set. -/
def spliceStep (pat rep : List Nat) (cs : Option SupportedChecksums)
    (data : List Nat) (i : Nat) : Except Unit (List Nat) :=
  let d2 := splice data i pat.length rep
  match calculate_checksum d2.dropLast cs with
  | .error e => .error e
  | .ok none => .ok d2
  | .ok (some c) => setLastE d2 c

/-- The inner `for i in range(len(data) - len_ml + 1)` loop of
`replace_patterns_if_matched`: `i` is the current index, the second argument
the number of indices still to scan; on the first slice match it performs the
substitution and breaks. -/
def scanGo (pat rep : List Nat) (cs : Option SupportedChecksums) (data : List Nat) :
    Nat → Nat → Except Unit (List Nat)
  | _, 0 => .ok data
  | i, n + 1 =>
    if matchAt pat data i then spliceStep pat rep cs data i
    else scanGo pat rep cs data (i + 1) n

/-- One iteration of the outer `for k, v in patterns.items()` loop:
scan `data` for `pat` starting at index 0; Python's
`range(len(data) - len_ml + 1)` has `len(data) + 1 - len(pat)` elements
(clamped at zero, matching an empty range for a negative bound). -/
def applyPattern (pat rep : List Nat) (cs : Option SupportedChecksums)
    (data : List Nat) : Except Unit (List Nat) :=
  scanGo pat rep cs data 0 (data.length + 1 - pat.length)

/-- Embedding of `replace_patterns_if_matched(data, patterns, checksum_method)`:
the outer loop iterates over all table entries (the Python `break` leaves only
the inner index loop); an exception raised by the checksum recomputation
propagates out. -/
def replace_patterns_if_matched (patterns : Table) (cs : Option SupportedChecksums)
    (data : List Nat) : Except Unit (List Nat) :=
  match patterns with
  | [] => .ok data
  | (p, r) :: rest =>
    match applyPattern p r cs data with
    | .error e => .error e
    | .ok d => replace_patterns_if_matched rest cs d

instance {ε α : Type} [DecidableEq ε] [DecidableEq α] : DecidableEq (Except ε α) :=
  fun x y =>
    match x, y with
    | .error a, .error b => decidable_of_iff (a = b) (by simp)
    | .error _, .ok _ => isFalse (by simp)
    | .ok _, .error _ => isFalse (by simp)
    | .ok a, .ok b => decidable_of_iff (a = b) (by simp)

/-- Specification-side first-occurrence index: the first `i` in
`range(len(data) + 1 - len(pat))` whose slice matches. -/
def findFirst (pat data : List Nat) : Option Nat :=
  (List.range (data.length + 1 - pat.length)).find? (matchAt pat data)

theorem scanGo_spec (pat rep : List Nat) (cs : Option SupportedChecksums)
    (data : List Nat) (n : Nat) :
    ∀ i, scanGo pat rep cs data i n =
      (match (List.range' i n).find? (matchAt pat data) with
       | none => .ok data
       | some j => spliceStep pat rep cs data j) := by
  induction n with
  | zero => intro i; simp [scanGo, List.range']
  | succ n ih =>
    intro i
    rw [List.range'_succ]
    by_cases h : matchAt pat data i = true
    · rw [List.find?_cons_of_pos _ h]
      simp [scanGo, h]
    · rw [List.find?_cons_of_neg _ h]
      rw [show scanGo pat rep cs data i (n + 1) = scanGo pat rep cs data (i + 1) n
        from by simp [scanGo, h]]
      exact ih (i + 1)

theorem applyPattern_eq_findFirst (pat rep : List Nat) (cs : Option SupportedChecksums)
    (data : List Nat) :
    applyPattern pat rep cs data =
      (match findFirst pat data with
       | none => .ok data
       | some j => spliceStep pat rep cs data j) := by
  rw [applyPattern, scanGo_spec, findFirst, List.range_eq_range']

theorem find?_range'_first {f : Nat → Bool} {s n j : Nat}
    (h : (List.range' s n).find? f = some j) :
    f j = true ∧ ∀ k, s ≤ k → k < j → f k = false := by
  induction n generalizing s with
  | zero => simp [List.range'] at h
  | succ n ih =>
    rw [List.range'_succ, List.find?_cons] at h
    cases hf : f s with
    | true =>
      rw [hf] at h
      simp at h
      subst h
      exact ⟨hf, fun k hk1 hk2 => absurd hk1 (by omega)⟩
    | false =>
      rw [hf] at h
      obtain ⟨h1, h2⟩ := ih h
      refine ⟨h1, fun k hk1 hk2 => ?_⟩
      rcases Nat.eq_or_lt_of_le hk1 with rfl | hlt
      · exact hf
      · exact h2 k hlt hk2

/-- Claim C1 (amended): a single invocation of `replace_patterns_if_matched`
performs at most one substitution PER TABLE ENTRY, not per message: the
entries are iterated in insertion order, each entry is spliced in at the
first occurrence of its pattern (the inner scan stops at the first match),
and scanning then CONTINUES with the remaining entries applied to the
updated message. -/
theorem replace_patterns_entrywise (p r : List Nat) (rest : Table)
    (cs : Option SupportedChecksums) (data : List Nat) :
    (replace_patterns_if_matched ((p, r) :: rest) cs data =
      match applyPattern p r cs data with
      | .error e => .error e
      | .ok d => replace_patterns_if_matched rest cs d)
    ∧ (applyPattern p r cs data =
        match findFirst p data with
        | none => .ok data
        | some j => spliceStep p r cs data j)
    ∧ (match findFirst p data with
       | none => True
       | some j => matchAt p data j = true
           ∧ (List.range j).all (fun k => !matchAt p data k) = true) := by
  refine ⟨rfl, applyPattern_eq_findFirst p r cs data, ?_⟩
  cases hm : findFirst p data with
  | none => trivial
  | some j =>
    rw [findFirst, List.range_eq_range'] at hm
    obtain ⟨h1, h2⟩ := find?_range'_first hm
    refine ⟨h1, ?_⟩
    simp only [List.all_eq_true, List.mem_range]
    intro k hk
    simp [h2 k (Nat.zero_le k) hk]

/-- Claim C1 counterexample: with table entries 0x01→0x02 and 0x02→0x03 and
message [0x01], the first entry rewrites the message to [0x02] and the SECOND
entry is then also applied, yielding [0x03]; with only the first entry the
result is [0x02].  So a later table entry IS applied in the same invocation,
refuting "at most one substitution per invocation". -/
theorem replace_patterns_two_subs :
    replace_patterns_if_matched [([1], [2]), ([2], [3])] none [1] = .ok [3]
    ∧ replace_patterns_if_matched [([1], [2])] none [1] = .ok [2]
    ∧ replace_patterns_if_matched [([1], [2]), ([2], [3])] none [1]
        ≠ replace_patterns_if_matched [([1], [2])] none [1] := by
  refine ⟨rfl, rfl, by decide⟩

/-- Claim C4 counterexample: on input [0xFF], `calculate_checksum` with method
`Checksum8Modulo256Plus1` returns 256 — it does NOT truncate to 8 bits
(truncation would give 0), and 256 does not fit in one byte. -/
theorem mod256plus1_not_truncated :
    calculate_checksum [255] (some SupportedChecksums.Checksum8Modulo256Plus1)
        = .ok (some 256)
    ∧ (256 : Nat) ≠ (255 % 256 + 1) % 256
    ∧ ¬ (256 : Nat) < 256 := by
  refine ⟨rfl, by decide, by decide⟩

/-- Claim C4 (amended): for every byte sequence X the `Checksum8Modulo256Plus1`
checksum computed by `calculate_checksum` equals `(sum(X) mod 256) + 1`
WITHOUT 8-bit truncation; it lies in the range 1..256 and exceeds one byte
exactly in the case `sum(X) mod 256 = 255`, where it is 256. -/
theorem mod256plus1_value (X : List Nat) :
    ∃ c, calculate_checksum X (some SupportedChecksums.Checksum8Modulo256Plus1)
        = .ok (some c)
      ∧ c = X.sum % 256 + 1 ∧ 1 ≤ c ∧ c ≤ 256 := by
  refine ⟨X.sum % 256 + 1, rfl, rfl, by omega, ?_⟩
  have := Nat.mod_lt X.sum (show 0 < 256 by decide)
  omega

/-- Claim C5: for every byte sequence X, the sum of the `Checksum8Modulo256`
checksum and the `Checksum82sComplement` checksum computed by
`calculate_checksum` is congruent to 0 modulo 256. -/
theorem checksum_roundtrip (X : List Nat) :
    ∃ a b, calculate_checksum X (some SupportedChecksums.Checksum8Modulo256)
        = .ok (some a)
      ∧ calculate_checksum X (some SupportedChecksums.Checksum82sComplement)
        = .ok (some b)
      ∧ (a + b) % 256 = 0 := by
  refine ⟨X.sum % 256, (-((X.sum % 256 : Nat) : Int) % 256).toNat, rfl, rfl, ?_⟩
  have hx : X.sum % 256 < 256 := Nat.mod_lt X.sum (by decide)
  omega

/-! ## Delimiter matcher: `check_msg` -/

/-- Python truthiness of the `byte` parameter of `check_msg`:
`if byte:` is false both for `None` and for the byte value 0. -/
def byteTruthy : Option Nat → Bool
  | none => false
  | some b => b != 0

/-- The window update of `check_msg`: if the window already holds
`checkMsgBufferMax` bytes, `pop(0)` the oldest, then `append` the new byte. -/
def pushByte (wmax : Nat) (buf : List Nat) (b : Nat) : List Nat :=
  if buf.length == wmax then buf.drop 1 ++ [b] else buf ++ [b]

/-- The `for i in msgDelims[start_or_end]` loop of `check_msg`: find the first
delimiter (in insertion order) whose length fits in the window and which
equals the window's tail of that length. -/
def scanDelims : List (List Nat) → List Nat → Option (List Nat)
  | [], _ => none
  | d :: ds, buf =>
    if buf.length < d.length then scanDelims ds buf
    else if buf.drop (buf.length - d.length) == d then some d
    else scanDelims ds buf

/-- Embedding of `check_msg(port, start_or_end, byte)` for one direction:
`delims` is `msgDelims[start_or_end]`, `wmax` is `checkMsgBufferMax`, `buf`
is `checkMsgBuffers[port]` and `byte` the optional new byte.  Returns the
matched delimiter (`[]` when none, Python's `""`) and the new window
contents.  Delimiter bytes are stored as `hex()` strings in the source;
`hex` is injective so the window is modelled at the byte level. -/
def check_msg (delims : List (List Nat)) (wmax : Nat) (buf : List Nat)
    (byte : Option Nat) : List Nat × List Nat :=
  if 0 < wmax then
    let buf1 :=
      match byte with
      | some b => if byteTruthy (some b) then pushByte wmax buf b else buf
      | none => buf
    match scanDelims delims buf1 with
    | some d => (d, [])
    | none => ([], buf1)
  else ([], buf)

/-- Claim C2: the code drops the byte value 0x00 on the floor.  With a single
configured delimiter [0x00] (window capacity 1) and an empty window, feeding
the byte 0x00 leaves the window EMPTY — the byte is not appended (Python
`if byte:` is false for 0) and no match is reported, although the claim says
the window must end with the fed byte; a nonzero byte behaves as claimed. -/
theorem check_msg_zero_byte_dropped :
    check_msg [[0]] 1 [] (some 0) = (([] : List Nat), ([] : List Nat))
    ∧ (check_msg [[0]] 1 [] (some 0)).2 ≠ [0]
    ∧ check_msg [[5]] 1 [] (some 5) = ([5], []) := by
  refine ⟨rfl, by decide, rfl⟩

/-- Claim C3 counterexample: the end-of-message peek (`check_msg` with no new
byte) DOES mutate the window when a match is found: with end delimiter
[0x0a], capacity 1 and window [0x0a], the call reports the match and clears
the window to []. -/
theorem check_msg_peek_clears_on_match :
    check_msg [[10]] 1 [10] none = ([10], ([] : List Nat))
    ∧ ([10] : List Nat) ≠ [] := by
  refine ⟨rfl, by decide⟩

/-- Claim C3 (amended): the end-of-message peek (`check_msg` called with no
new byte) never pushes anything into the window; the window is left exactly
as it was whenever NO delimiter matches, and is cleared (exactly as a
matching feed would clear it) when the tail matches a configured delimiter. -/
theorem check_msg_peek_window (delims : List (List Nat)) (wmax : Nat)
    (buf : List Nat) :
    (check_msg delims wmax buf none).2 =
      (if 0 < wmax then
        match scanDelims delims buf with
        | some _ => ([] : List Nat)
        | none => buf
      else buf) := by
  by_cases h : 0 < wmax
  · simp only [check_msg, h, if_true]
    cases scanDelims delims buf <;> rfl
  · simp [check_msg, h]

/-! ## Tee sink -/

/-- State of the `tee` capture sink: the running byte counter
`captureFileSize` (a Python int, hence `Int`), the file's seek position, and
the strings handed to `captureFile.write`, in order.  The capture file is
open and the display is irrelevant to the claims. -/
structure TeeState where
  size : Int
  pos : Int
  writes : List (List Char)
deriving DecidableEq

/-- Python `len(string) > 0 and string[0] == "\b"`. -/
def startsWithBackspace : List Char → Bool
  | [] => false
  | c :: _ => c == '\x08'

/-- Embedding of `tee(string, end)` with the capture file open: a rewind
request (text starting with backspace) decrements the byte counter by
`len(string)`, clamping at zero, and seeks to the new counter without
writing; any other text is written as `string + end` and counted. -/
def tee (string endStr : List Char) (st : TeeState) : TeeState :=
  if startsWithBackspace string then
    let size1 := if st.size ≥ (string.length : Int) then st.size - string.length else 0
    { st with size := size1, pos := size1 }
  else
    { size := st.size + string.length + endStr.length,
      pos := st.pos + string.length + endStr.length,
      writes := st.writes ++ [string ++ endStr] }

/-- Claim C8: while a capture file is open, an `emit(text, end)` whose text
does not begin with backspace increases the byte counter by
`len(text) + len(end)` and appends one write; one whose text begins with
backspace decreases the counter by `len(text)` clamped at zero (the counter
never becomes negative), seeks the file to the new counter, and writes
nothing. -/
theorem tee_size_counter (string endStr : List Char) (st : TeeState)
    (h : 0 ≤ st.size) :
    0 ≤ (tee string endStr st).size
    ∧ (tee string endStr st).size =
        (if startsWithBackspace string then max 0 (st.size - string.length)
         else st.size + string.length + endStr.length)
    ∧ (tee string endStr st).writes =
        (if startsWithBackspace string then st.writes
         else st.writes ++ [string ++ endStr])
    ∧ (tee string endStr st).pos =
        (if startsWithBackspace string then (tee string endStr st).size
         else st.pos + string.length + endStr.length) := by
  by_cases hb : startsWithBackspace string = true
  · have ht : tee string endStr st =
        { st with
          size := if st.size ≥ (string.length : Int) then st.size - string.length else 0,
          pos := if st.size ≥ (string.length : Int) then st.size - string.length else 0 } := by
      simp [tee, hb]
    rw [ht]
    simp only [hb, if_true]
    refine ⟨?_, ?_, by trivial, by trivial⟩
    · show (0 : Int) ≤ (if st.size ≥ (string.length : Int) then st.size - string.length else 0)
      split <;> omega
    · show (if st.size ≥ (string.length : Int) then st.size - string.length else 0)
        = max 0 (st.size - string.length)
      split <;> omega
  · have ht : tee string endStr st =
        { size := st.size + string.length + endStr.length,
          pos := st.pos + string.length + endStr.length,
          writes := st.writes ++ [string ++ endStr] } := by
      simp [tee, hb]
    rw [ht]
    simp only [hb, Bool.false_eq_true, if_false]
    exact ⟨by show (0:Int) ≤ st.size + string.length + endStr.length; omega,
      by trivial, by trivial, by trivial⟩

/-- Claim C8 witness: the invariant instantiated at a concrete non-rewind
emission and a concrete rewind. -/
theorem tee_size_counter_witness :
    (0 ≤ (tee ['a', 'b'] ['\n'] ⟨5, 5, []⟩).size
      ∧ (tee ['a', 'b'] ['\n'] ⟨5, 5, []⟩).size = 5 + 2 + 1)
    ∧ (0 ≤ (tee ['\x08', 'x', 'y', 'z'] [] ⟨2, 2, []⟩).size
      ∧ (tee ['\x08', 'x', 'y', 'z'] [] ⟨2, 2, []⟩).size = max 0 (2 - 4)
      ∧ (tee ['\x08', 'x', 'y', 'z'] [] ⟨2, 2, []⟩).writes = []) := by
  have h1 := tee_size_counter ['a', 'b'] ['\n'] ⟨5, 5, []⟩ (by decide)
  have h2 := tee_size_counter ['\x08', 'x', 'y', 'z'] [] ⟨2, 2, []⟩ (by decide)
  exact ⟨⟨h1.1, by simpa using h1.2.1⟩, h2.1, by simpa using h2.2.1,
    by simpa using h2.2.2.1⟩

/-! ## Relay engine: `data_received_callback` -/

/-- A proxy direction, `"A"` or `"B"`. -/
inductive Dir where
  | A
  | B
deriving DecidableEq

/-- `opposite(D)`: the output port for data read from `D`. -/
def Dir.opp : Dir → Dir
  | .A => .B
  | .B => .A

/-- The delimiter configuration fixed by `start_traffic`. -/
structure Config where
  startDelims : List (List Nat)
  endDelims : List (List Nat)
  delimMatching : Bool
  checkMsgBufferMax : Nat

/-- The computation at the top of `start_traffic`: `delimMatching` becomes
true as soon as any delimiter (of either kind) exists, and
`checkMsgBufferMax` is the maximum configured delimiter length. -/
def start_traffic_config (s e : List (List Nat)) : Config :=
  { startDelims := s
    endDelims := e
    delimMatching := !(s ++ e).isEmpty
    checkMsgBufferMax := ((s ++ e).map List.length).foldr max 0 }

/-- The per-direction mutable globals touched by `data_received_callback`:
delimiter windows (`checkMsgBuffers`), outgoing message buffers
(`portDataOutBuffer`, indexed by OUTPUT direction), the last matched
delimiters (`delimMatched`), and the shared transcript counters. -/
structure RelayState where
  win : Dir → List Nat
  outBuf : Dir → List Nat
  dmStart : Dir → List Nat
  dmEnd : Dir → List Nat
  lastPrinted : Option Dir
  bytesOnLine : Nat

/-- Python `portDataOutBuffer[outp][:last_data_index]`: a slice bound that may
be negative, in which case it counts from the end of the list. -/
def pySlice (l : List Nat) (j : Int) : List Nat :=
  if j < 0 then l.take (l.length - (-j).toNat) else l.take j.toNat

/-- The body of `for b in data` in `data_received_callback` for one byte `b`
read from direction `p`: check for a start-delimiter match (feeding `b` into
the window), on a match flush the buffered previous-message tail and reset
the buffer to the delimiter; otherwise peek for an end-delimiter match,
buffer the byte when framing is on and flush the buffer on an end match; with
framing off forward the single byte.  Returns the new state and the byte
sequences passed to `processor.write` for `opposite(p)`, in order. -/
def processByte (cfg : Config) (p : Dir) (st : RelayState) (b : Nat) :
    RelayState × List (List Nat) :=
  let outp := p.opp
  let startRes := check_msg cfg.startDelims cfg.checkMsgBufferMax (st.win p) (some b)
  let st1 := { st with win := Function.update st.win p startRes.2,
                       dmStart := Function.update st.dmStart p startRes.1 }
  if startRes.1 ≠ [] then
    let buf1 := st1.outBuf outp ++ [b]
    let lastDataIndex : Int := (buf1.length : Int) - (startRes.1.length : Int)
    let st2 := { st1 with outBuf := Function.update st1.outBuf outp startRes.1,
                          bytesOnLine := startRes.1.length }
    (st2, [pySlice buf1 lastDataIndex]
      ++ (if cfg.delimMatching then [] else [[b]]))
  else
    let endRes := check_msg cfg.endDelims cfg.checkMsgBufferMax (st1.win p) none
    let st2 := { st1 with win := Function.update st1.win p endRes.2,
                          dmEnd := Function.update st1.dmEnd p endRes.1,
                          bytesOnLine := st1.bytesOnLine + 1 }
    let st3 := if cfg.delimMatching then
        { st2 with outBuf := Function.update st2.outBuf outp (st2.outBuf outp ++ [b]) }
      else st2
    let flush := if endRes.1 ≠ [] then
        ({ st3 with outBuf := Function.update st3.outBuf outp [] },
          [st3.outBuf outp])
      else (st3, [])
    (flush.1, flush.2 ++ (if cfg.delimMatching then [] else [[b]]))

/-- The `for b in data` loop, threading the state and concatenating the
writes in order. -/
def processBytes (cfg : Config) (p : Dir) : RelayState → List Nat →
    RelayState × List (List Nat)
  | st, [] => (st, [])
  | st, b :: rest =>
    let one := processByte cfg p st b
    let more := processBytes cfg p one.1 rest
    (more.1, one.2 ++ more.2)

/-- The transcript preamble at the top of `data_received_callback` for a
nonempty chunk: direction changes and a pending end-of-message match reset
`bytesOnLine`, and the per-direction `delimMatched` entries are cleared. -/
def chunkPreamble (p : Dir) (st : RelayState) : RelayState :=
  let st1 :=
    if st.lastPrinted ≠ some p then
      { st with lastPrinted := some p, bytesOnLine := 0 }
    else if st.dmEnd p ≠ [] then { st with bytesOnLine := 0 }
    else st
  { st1 with dmStart := Function.update st1.dmStart p [],
             dmEnd := Function.update st1.dmEnd p [] }

/-- Embedding of `data_received_callback(data, p)`: nothing happens on an
empty chunk; otherwise the transcript preamble runs and each byte of the
chunk is processed in order.  The `tee` text emissions do not affect routing
and are not collected here. -/
def data_received_callback (cfg : Config) (p : Dir) (st : RelayState)
    (data : List Nat) : RelayState × List (List Nat) :=
  if data.isEmpty then (st, [])
  else processBytes cfg p (chunkPreamble p st) data

theorem chunkPreamble_outBuf (p : Dir) (st : RelayState) :
    (chunkPreamble p st).outBuf = st.outBuf := by
  simp only [chunkPreamble]
  split
  · rfl
  · split <;> rfl

theorem chunkPreamble_win (p : Dir) (st : RelayState) :
    (chunkPreamble p st).win = st.win := by
  simp only [chunkPreamble]
  split
  · rfl
  · split <;> rfl

theorem processByte_no_framing (p : Dir) (st : RelayState) (b : Nat) :
    processByte (start_traffic_config [] []) p st b =
      ({ st with dmStart := Function.update st.dmStart p [],
                 dmEnd := Function.update st.dmEnd p [],
                 bytesOnLine := st.bytesOnLine + 1 }, [[b]]) := by
  have hck : ∀ (buf : List Nat) (byte : Option Nat),
      check_msg ([] : List (List Nat)) 0 buf byte = ([], buf) := by
    intro buf byte
    simp [check_msg]
  simp [processByte, start_traffic_config, hck, Function.update_eq_self]

/-- Claim C6: with framing disabled (both delimiter sets empty, hence
`delimMatching` false and window capacity 0), a received chunk is forwarded
to `opposite(p)` one byte at a time, unmodified and in order, and neither
message buffer gains a byte (the relay callback never invokes
`replace_patterns_if_matched` or `calculate_checksum` at all, so no
substitution or checksum touches the traffic). -/
theorem framing_disabled_passthrough (p : Dir) (st : RelayState)
    (data : List Nat) :
    (data_received_callback (start_traffic_config [] []) p st data).2
        = data.map (fun b => [b])
    ∧ (∀ q, (data_received_callback (start_traffic_config [] []) p st data).1.outBuf q
        = st.outBuf q)
    ∧ (∀ q, (data_received_callback (start_traffic_config [] []) p st data).1.win q
        = st.win q) := by
  have key : ∀ (st0 : RelayState) (ds : List Nat),
      (processBytes (start_traffic_config [] []) p st0 ds).2 = ds.map (fun b => [b])
      ∧ (∀ q, (processBytes (start_traffic_config [] []) p st0 ds).1.outBuf q
          = st0.outBuf q)
      ∧ (∀ q, (processBytes (start_traffic_config [] []) p st0 ds).1.win q
          = st0.win q) := by
    intro st0 ds
    induction ds generalizing st0 with
    | nil => exact ⟨rfl, fun _ => rfl, fun _ => rfl⟩
    | cons b rest ih =>
      simp only [processBytes, processByte_no_framing]
      obtain ⟨h1, h2, h3⟩ := ih
        { st0 with dmStart := Function.update st0.dmStart p [],
                   dmEnd := Function.update st0.dmEnd p [],
                   bytesOnLine := st0.bytesOnLine + 1 }
      exact ⟨by simpa using h1, fun q => by simpa using h2 q,
        fun q => by simpa using h3 q⟩
  unfold data_received_callback
  by_cases hd : data.isEmpty
  · have : data = [] := List.isEmpty_iff.mp hd
    subst this
    exact ⟨rfl, fun _ => rfl, fun _ => rfl⟩
  · simp only [hd, Bool.false_eq_true, if_false]
    obtain ⟨h1, h2, h3⟩ := key (chunkPreamble p st) data
    exact ⟨h1, fun q => by rw [h2 q, chunkPreamble_outBuf],
      fun q => by rw [h3 q, chunkPreamble_win]⟩

theorem check_msg_match_needs_capacity {delims : List (List Nat)} {wmax : Nat}
    {buf : List Nat} {byte : Option Nat} {d : List Nat}
    (hm : (check_msg delims wmax buf byte).1 = d) (hne : d ≠ []) : 0 < wmax := by
  by_contra hw0
  have h0 : ¬ 0 < wmax := hw0
  unfold check_msg at hm
  rw [if_neg h0] at hm
  exact hne hm.symm

/-- Claim C7: when framing is active and a start-delimiter `d` completes on a
byte `b` from direction `p`, the relay writes to `opposite(p)` exactly one
byte sequence: the contents of `portDataOutBuffer[opposite(p)]` (with `b`
appended) up to but not including the final `len(d)` delimiter bytes — the
previous message's tail — and resets that buffer to exactly the bytes of
`d`. -/
theorem relay_start_delim_flush (s e : List (List Nat)) (p : Dir)
    (st : RelayState) (b : Nat) (d : List Nat)
    (hm : (check_msg s (start_traffic_config s e).checkMsgBufferMax
        (st.win p) (some b)).1 = d)
    (hne : d ≠ [])
    (hlen : d.length ≤ (st.outBuf p.opp).length + 1) :
    (processByte (start_traffic_config s e) p st b).2
        = [(st.outBuf p.opp ++ [b]).take ((st.outBuf p.opp).length + 1 - d.length)]
    ∧ (processByte (start_traffic_config s e) p st b).1.outBuf p.opp = d := by
  have hw : 0 < (start_traffic_config s e).checkMsgBufferMax :=
    check_msg_match_needs_capacity hm hne
  have hdm : (start_traffic_config s e).delimMatching = true := by
    rcases hse : s ++ e with _ | ⟨d0, ds⟩
    · exfalso
      have h0 : (start_traffic_config s e).checkMsgBufferMax = 0 := by
        simp [start_traffic_config, hse]
      omega
    · simp [start_traffic_config, hse]
  have hps : pySlice (st.outBuf p.opp ++ [b])
      (((st.outBuf p.opp ++ [b]).length : Int) - (d.length : Int))
      = (st.outBuf p.opp ++ [b]).take ((st.outBuf p.opp).length + 1 - d.length) := by
    have hj : ¬ (((st.outBuf p.opp ++ [b]).length : Int) - (d.length : Int) < 0) := by
      rw [List.length_append]
      simp only [List.length_cons, List.length_nil]
      omega
    rw [pySlice, if_neg hj]
    congr 1
    rw [List.length_append]
    simp only [List.length_cons, List.length_nil]
    omega
  simp only [processByte]
  simp only [start_traffic_config] at hm hdm
  simp only [start_traffic_config, hm, hdm, if_true, List.append_nil]
  rw [if_pos hne]
  refine ⟨?_, ?_⟩
  · show [pySlice (st.outBuf p.opp ++ [b])
        (((st.outBuf p.opp ++ [b]).length : Int) - (d.length : Int))] ++ [] = _
    rw [hps, List.append_nil]
  · simp [Function.update_same]

/-- A relay state with empty windows and buffers, as after `start_traffic`. -/
def relayStateZero : RelayState :=
  ⟨fun _ => [], fun _ => [], fun _ => [], fun _ => [], none, 0⟩

/-- Claim C7 witness: single start-delimiter [0xAA] completing on the first
byte; the flush writes the (empty) previous tail and the buffer is reset to
[0xAA]. -/
theorem relay_start_delim_flush_witness :
    (processByte (start_traffic_config [[170]] []) Dir.A relayStateZero 170).2
        = [([] : List Nat)]
    ∧ (processByte (start_traffic_config [[170]] []) Dir.A relayStateZero 170).1.outBuf
        Dir.A.opp = [170] :=
  relay_start_delim_flush [[170]] [] Dir.A relayStateZero 170 [170]
    (by decide) (by decide) (by decide)

/-! ## Replay engine: `replay_traffic` -/

/-- A well-formed line of a capture file, as classified by `replay_traffic`:
either a direction header (a line beginning `"A -> B:"` or `"B -> A:"`,
whose payload follows the colon) or a continuation line.  Payloads are the
byte values of the line's parsed `0xHH` tokens. -/
inductive CaptureLine where
  | header (d : Dir) (payload : List Nat)
  | cont (payload : List Nat)
deriving DecidableEq

def CaptureLine.isHeader : CaptureLine → Bool
  | .header _ _ => true
  | .cont _ => false

/-- The initial pass of `replay_traffic` that determines the replay
direction: walk the lines updating the current direction at each header and
break at the first selected line once a direction is known; the direction
left at the end of the walk is the result (`none` is Python's
`"unknown"`). -/
def detectDir (sel : List Nat) : List CaptureLine → Nat → Option Dir → Option Dir
  | [], _, dir => dir
  | l :: ls, n, dir =>
    let dir1 := match l with | .header d _ => some d | .cont _ => dir
    if n ∈ sel ∧ dir1 ≠ none then dir1
    else detectDir sel ls (n + 1) dir1

/-- The replay loop of `replay_traffic`: for each line, update the current
direction from headers; when the line number is selected and the current
direction equals the replay direction, run the pattern rewriter on its
payload and write the result.  Returns the byte sequences written, in order,
and whether the rewriter raised (which stops the loop). -/
def secondPass (sel : List Nat) (d : Dir) (tbl : Table)
    (cs : Option SupportedChecksums) :
    List CaptureLine → Nat → Option Dir → List (List Nat) × Bool
  | [], _, _ => ([], false)
  | l :: ls, n, curr =>
    let curr1 := match l with | .header d0 _ => some d0 | .cont _ => curr
    let payload := match l with | .header _ pl => pl | .cont pl => pl
    if n ∈ sel ∧ curr1 = some d then
      match replace_patterns_if_matched tbl cs payload with
      | .error _ => ([], true)
      | .ok w =>
        let rest := secondPass sel d tbl cs ls (n + 1) curr1
        (w :: rest.1, rest.2)
    else secondPass sel d tbl cs ls (n + 1) curr1

/-- Embedding of `replay_traffic` after the selector has been resolved to the
set `sel` of 1-based line numbers: when the direction pre-pass ends with
`"unknown"`, the error is reported and the function returns before writing
anything (`none`); otherwise the second pass runs. -/
def replay_traffic (contents : List CaptureLine) (sel : List Nat) (tbl : Table)
    (cs : Option SupportedChecksums) : Option (List (List Nat) × Bool) :=
  match detectDir sel contents 1 none with
  | none => none
  | some d => some (secondPass sel d tbl cs contents 1 none)

/-- Claim C9 counterexample: capture whose line 1 is a continuation line (no
header applies to it, headers only appear later) with selection {1}.  The
claim demands a direction-unknown failure, but the code's pre-pass never
breaks (line 1 is reached with the direction still unknown), scans the whole
file, adopts the later header's direction `A -> B`, and proceeds without any
error (writing nothing because line 1's inherited direction never matches). -/
theorem replay_no_header_for_selected_line :
    replay_traffic [CaptureLine.cont [5], CaptureLine.header Dir.A [7]] [1] [] none
        = some ([], false)
    ∧ replay_traffic [CaptureLine.cont [5], CaptureLine.header Dir.A [7]] [1] [] none
        ≠ none := by
  refine ⟨by decide, by decide⟩

theorem detectDir_eq_none_iff (sel : List Nat) (contents : List CaptureLine) :
    ∀ (n : Nat) (dir : Option Dir),
      (detectDir sel contents n dir = none
        ↔ dir = none ∧ contents.all (fun l => !l.isHeader) = true) := by
  induction contents with
  | nil =>
    intro n dir
    simp [detectDir]
  | cons l ls ih =>
    intro n dir
    cases l with
    | header d0 pl =>
      simp only [detectDir]
      by_cases hn : n ∈ sel ∧ (some d0 : Option Dir) ≠ none
      · rw [if_pos hn]
        simp [CaptureLine.isHeader]
      · rw [if_neg hn]
        rw [ih (n + 1) (some d0)]
        simp [CaptureLine.isHeader]
    | cont pl =>
      simp only [detectDir]
      by_cases hn : n ∈ sel ∧ dir ≠ none
      · rw [if_pos hn]
        constructor
        · intro h
          exact absurd h hn.2
        · intro h
          exact absurd h.1 hn.2
      · rw [if_neg hn]
        rw [ih (n + 1) dir]
        simp [CaptureLine.isHeader]

/-- Claim C9 (amended): the replay direction pre-pass walks the capture,
updating the current direction at each header, and stops at the first
selected line whose direction is already known (inheriting the most recent
header); if no such line stops it, the direction is the last header's.
Consequently the replay fails with the direction-unknown error — returning
before any byte is written — exactly when the capture file contains no
header line at all, NOT whenever no header applies to a selected line. -/
theorem replay_dir_unknown_iff (contents : List CaptureLine) (sel : List Nat)
    (tbl : Table) (cs : Option SupportedChecksums) :
    replay_traffic contents sel tbl cs = none
      ↔ contents.all (fun l => !l.isHeader) = true := by
  unfold replay_traffic
  cases hdet : detectDir sel contents 1 none with
  | none =>
    simp only [true_iff]
    have := (detectDir_eq_none_iff sel contents 1 none).mp hdet
    simp [this.2]
  | some d =>
    simp only [iff_false]
    constructor
    · intro h
      exact Option.noConfusion h
    · intro h
      have : detectDir sel contents 1 none = none :=
        (detectDir_eq_none_iff sel contents 1 none).mpr ⟨rfl, h⟩
      rw [hdet] at this
      exact Option.noConfusion this

/-! ## Claim C10: Xor8 on an empty byte sequence -/

theorem xorFold_lt (xs : List Nat) :
    ∀ x, x < 256 → (∀ v ∈ xs, v < 256) →
      xs.foldl (fun a b => a ^^^ b) x < 256 := by
  induction xs with
  | nil => intro x hx _; exact hx
  | cons v vs ih =>
    intro x hx hall
    simp only [List.foldl_cons]
    refine ih (x ^^^ v) ?_ (fun w hw => hall w (List.mem_cons_of_mem v hw))
    have h8 : (256 : Nat) = 2 ^ 8 := rfl
    rw [h8] at hx ⊢
    exact Nat.xor_lt_two_pow hx (h8 ▸ hall v (List.mem_cons_self v vs))

/-- Claim C10: `calculate_checksum` with `Checksum8Xor` raises on an empty
byte sequence (Python `functools.reduce` with no initial value) and returns
the XOR fold — a value below 256 for byte-valued input — on any nonempty
one; consequently, when a substitution leaves the message with exactly one
byte, the checksum recomputation over the message minus its last byte (the
empty prefix) raises, and `replace_patterns_if_matched` fails. -/
theorem xor8_empty_raises (x : Nat) (xs : List Nat)
    (hb : ∀ v ∈ x :: xs, v < 256)
    (p r data : List Nat) (tbl : Table) (i : Nat)
    (hfind : findFirst p data = some i)
    (hlen : (splice data i p.length r).length = 1) :
    calculate_checksum [] (some SupportedChecksums.Checksum8Xor) = .error ()
    ∧ calculate_checksum (x :: xs) (some SupportedChecksums.Checksum8Xor)
        = .ok (some (xs.foldl (fun a b => a ^^^ b) x))
    ∧ xs.foldl (fun a b => a ^^^ b) x < 256
    ∧ replace_patterns_if_matched ((p, r) :: tbl)
        (some SupportedChecksums.Checksum8Xor) data = .error () := by
  refine ⟨rfl, rfl, xorFold_lt xs x (hb x (List.mem_cons_self x xs))
    (fun v hv => hb v (List.mem_cons_of_mem x hv)), ?_⟩
  have happ : applyPattern p r (some SupportedChecksums.Checksum8Xor) data
      = spliceStep p r (some SupportedChecksums.Checksum8Xor) data i := by
    rw [applyPattern_eq_findFirst, hfind]
  have hstep : spliceStep p r (some SupportedChecksums.Checksum8Xor) data i
      = .error () := by
    simp only [spliceStep]
    have hdrop : (splice data i p.length r).dropLast = [] := by
      rcases hsp : splice data i p.length r with _ | ⟨y, ys⟩
      · rfl
      · rw [hsp] at hlen
        simp only [List.length_cons] at hlen
        have : ys = [] := List.eq_nil_of_length_eq_zero (by omega)
        subst this
        rfl
    rw [hdrop]
    rfl
  unfold replace_patterns_if_matched
  rw [happ, hstep]

/-- Claim C10 witness: substituting [0x01, 0x02] → [0x03] in message
[0x01, 0x02] leaves one byte, and the Xor8 recomputation over the empty
prefix raises. -/
theorem xor8_empty_raises_witness :
    calculate_checksum [] (some SupportedChecksums.Checksum8Xor) = .error ()
    ∧ calculate_checksum [1, 2] (some SupportedChecksums.Checksum8Xor)
        = .ok (some ([2].foldl (fun a b => a ^^^ b) 1))
    ∧ [2].foldl (fun a b => a ^^^ b) 1 < 256
    ∧ replace_patterns_if_matched [([1, 2], [3])]
        (some SupportedChecksums.Checksum8Xor) [1, 2] = .error () :=
  xor8_empty_raises 1 [2] (by decide) [1, 2] [3] [1, 2] [] 0 (by decide) (by decide)

end Akheron
